import Mathlib

/-!
Shallow embedding of the xpanel node agent's control loop
(`src/xpanel-agent`): user reconciliation (`internal/agent/sync.go`),
activity tracking and reporting (`internal/agent/activity.go`),
traffic reporting and startup configuration resolution
(`internal/agent/traffic.go`), and the Reality keypair lifecycle
(`internal/agent/reality.go`).

Modelling conventions:
* Go `int64` counters are `Int`; Go `int`/`uint` fields are `Int`/`Nat`.
* Timestamps are seconds since an arbitrary epoch (`Nat`); Go's zero
  `time.Time` is `Option.none`.
* Go maps are association lists with an explicit (but arbitrary)
  iteration order; the properties proved below are order-insensitive.
* External effects (panel HTTP calls, xray-core gRPC calls, randomness,
  the filesystem, the clock) enter as explicit parameters; an engine
  call that can fail is represented by a success predicate or an
  `Option`-valued query function.
-/

namespace XPanelAgent

/-- Association-list model of Go map indexing `v, ok := m[k]`. -/
def mapLookup {V : Type} (k : String) : List (String × V) → Option V
  | [] => none
  | (k2, v) :: rest => if k2 = k then some v else mapLookup k rest

/-- Association-list model of Go map assignment `m[k] = v`. -/
def mapInsert {V : Type} (k : String) (v : V) : List (String × V) → List (String × V)
  | [] => [(k, v)]
  | (k2, v2) :: rest => if k2 = k then (k, v) :: rest else (k2, v2) :: mapInsert k v rest

theorem mapLookup_isSome_iff {V : Type} (k : String) (l : List (String × V)) :
    (mapLookup k l).isSome ↔ k ∈ l.map Prod.fst := by
  induction l with
  | nil => simp [mapLookup]
  | cons p rest ih =>
    obtain ⟨k2, v⟩ := p
    by_cases h : k2 = k
    · subst h; simp [mapLookup]
    · have h2 : ¬ k = k2 := fun hk => h hk.symm
      simp [mapLookup, h, h2, ih]

theorem mem_keys_mapInsert {V : Type} (k k2 : String) (v : V) (l : List (String × V)) :
    k ∈ (mapInsert k2 v l).map Prod.fst ↔ k = k2 ∨ k ∈ l.map Prod.fst := by
  induction l with
  | nil => simp [mapInsert, eq_comm]
  | cons p rest ih =>
    obtain ⟨k3, v3⟩ := p
    by_cases h : k3 = k2
    · subst h; simp [mapInsert]
    · simp [mapInsert, h, ih]; tauto

theorem mapLookup_mapInsert_self {V : Type} (k : String) (v : V) (l : List (String × V)) :
    mapLookup k (mapInsert k v l) = some v := by
  induction l with
  | nil => simp [mapInsert, mapLookup]
  | cons p rest ih =>
    obtain ⟨k3, v3⟩ := p
    by_cases h : k3 = k <;> simp [mapInsert, mapLookup, h, ih]

/-! ## Reconciliation (`internal/agent/sync.go`) -/

/-- `models.UserConfig`: one desired identity as fetched from the panel. -/
structure UserConfig where
  UserID : Nat
  Email : String
  UUID : String
  Status : String
  DataLimit : Int
  DataUsed : Int
deriving DecidableEq, Repr

/-- `models.XrayUser`: the record handed to the engine's `AddUser` call. -/
structure XrayUser where
  Email : String
  UUID : String
  Level : Int
  Protocol : String
  Flow : String
deriving DecidableEq, Repr

/-- The `panelUsers` map built at the top of `Agent.syncUsers`:
`panelUsers[users[i].Email] = &users[i]`, assigned in slice order. -/
def buildPanelUsers (users : List UserConfig) : List (String × UserConfig) :=
  users.foldl (fun m u => mapInsert u.Email u m) []

/-- The `XrayUser` value `syncUsers` builds for a user about to be added:
`Level` 0, protocol from the xray config, Reality flow when enabled. -/
def mkXrayUser (protocol : String) (realityEnabled : Bool) (u : UserConfig) : XrayUser :=
  { Email := u.Email, UUID := u.UUID, Level := 0, Protocol := protocol,
    Flow := if realityEnabled then "xtls-rprx-vision" else "" }

/-- The add loop of `Agent.syncUsers`: for each `panelUsers` entry whose
email is absent from `currentUsers`, issue the engine `AddUser` call
(success given by `addOk`); on success insert into `currentUsers`, on
failure log and continue.  Returns the new `currentUsers`, the emails for
which an `AddUser` call was issued, and the `added` counter. -/
def addLoop (addOk : XrayUser → Bool) (protocol : String) (realityEnabled : Bool) :
    List (String × UserConfig) → List (String × UserConfig) →
    List (String × UserConfig) × List String × Nat
  | [], current => (current, [], 0)
  | (email, u) :: rest, current =>
    match mapLookup email current with
    | some _ => addLoop addOk protocol realityEnabled rest current
    | none =>
      if addOk (mkXrayUser protocol realityEnabled u) then
        let r := addLoop addOk protocol realityEnabled rest (mapInsert email u current)
        (r.1, email :: r.2.1, r.2.2 + 1)
      else
        let r := addLoop addOk protocol realityEnabled rest current
        (r.1, email :: r.2.1, r.2.2)

/-- The remove loop of `Agent.syncUsers`: for each `currentUsers` entry whose
email is absent from `panelUsers`, issue the engine `RemoveUser` call
(success given by `removeOk`); on success delete from `currentUsers`, on
failure log, keep the entry and continue.  Returns the new `currentUsers`,
the emails for which a `RemoveUser` call was issued, and the `removed`
counter. -/
def removeLoop (removeOk : String → Bool) (panel : List (String × UserConfig)) :
    List (String × UserConfig) →
    List (String × UserConfig) × List String × Nat
  | [] => ([], [], 0)
  | (email, u) :: rest =>
    let r := removeLoop removeOk panel rest
    match mapLookup email panel with
    | some _ => ((email, u) :: r.1, r.2.1, r.2.2)
    | none =>
      if removeOk email then (r.1, email :: r.2.1, r.2.2 + 1)
      else ((email, u) :: r.1, email :: r.2.1, r.2.2)

/-- Observable outcome of one `Agent.syncUsers` pass. -/
structure SyncOutcome where
  result : Except String Unit
  currentUsers : List (String × UserConfig)
  addCalls : List String
  removeCalls : List String
  added : Nat
  removed : Nat

/-- Shallow embedding of `Agent.syncUsers`.  `fetched` is the result of
`panelClient.FetchUserSync`; on fetch failure the function returns the
error before touching `currentUsers` and before any engine call. -/
def syncUsers (fetched : Except String (List UserConfig))
    (current : List (String × UserConfig))
    (addOk : XrayUser → Bool) (removeOk : String → Bool)
    (protocol : String) (realityEnabled : Bool) : SyncOutcome :=
  match fetched with
  | .error e =>
    { result := .error e, currentUsers := current,
      addCalls := [], removeCalls := [], added := 0, removed := 0 }
  | .ok users =>
    let panel := buildPanelUsers users
    let ra := addLoop addOk protocol realityEnabled panel current
    let rr := removeLoop removeOk panel ra.1
    { result := .ok (), currentUsers := rr.1, addCalls := ra.2.1,
      removeCalls := rr.2.1, added := ra.2.2, removed := rr.2.2 }

theorem mem_keys_buildPanelUsers (k : String) (users : List UserConfig) :
    k ∈ (buildPanelUsers users).map Prod.fst ↔ k ∈ users.map UserConfig.Email := by
  have main : ∀ (us : List UserConfig) (acc : List (String × UserConfig)),
      k ∈ (us.foldl (fun m u => mapInsert u.Email u m) acc).map Prod.fst ↔
        k ∈ acc.map Prod.fst ∨ k ∈ us.map UserConfig.Email := by
    intro us
    induction us with
    | nil => simp
    | cons u rest ih =>
      intro acc
      simp only [List.foldl_cons, ih, mem_keys_mapInsert, List.map_cons, List.mem_cons]
      tauto
  simpa using main users []

theorem mem_keys_addLoop (addOk : XrayUser → Bool) (protocol : String)
    (realityEnabled : Bool) (hadd : ∀ xu, addOk xu = true) (k : String) :
    ∀ (panel current : List (String × UserConfig)),
      k ∈ (addLoop addOk protocol realityEnabled panel current).1.map Prod.fst ↔
        k ∈ current.map Prod.fst ∨ k ∈ panel.map Prod.fst := by
  intro panel
  induction panel with
  | nil => simp [addLoop]
  | cons p rest ih =>
    intro current
    obtain ⟨email, u⟩ := p
    rcases hl : mapLookup email current with _ | v
    · simp only [addLoop, hl, hadd]
      simp only [if_true, ih, mem_keys_mapInsert, List.map_cons, List.mem_cons]
      tauto
    · have hmem : email ∈ current.map Prod.fst := by
        rw [← mapLookup_isSome_iff, hl]; rfl
      simp only [addLoop, hl, ih, List.map_cons, List.mem_cons]
      constructor
      · tauto
      · rintro (h | h | h)
        · exact Or.inl h
        · exact Or.inl (h ▸ hmem)
        · exact Or.inr h

theorem addLoop_noop (addOk : XrayUser → Bool) (protocol : String)
    (realityEnabled : Bool) :
    ∀ (panel current : List (String × UserConfig)),
      (∀ p ∈ panel, (mapLookup p.1 current).isSome) →
      addLoop addOk protocol realityEnabled panel current = (current, [], 0) := by
  intro panel
  induction panel with
  | nil => intro current _; rfl
  | cons p rest ih =>
    intro current hall
    obtain ⟨email, u⟩ := p
    have h1 : (mapLookup email current).isSome := hall (email, u) (List.mem_cons_self _ _)
    rcases hl : mapLookup email current with _ | v
    · rw [hl] at h1; exact absurd h1 (by simp)
    · simp only [addLoop, hl]
      exact ih current (fun q hq => hall q (List.mem_cons_of_mem _ hq))

theorem mem_keys_removeLoop (removeOk : String → Bool)
    (hrem : ∀ e, removeOk e = true) (k : String)
    (panel : List (String × UserConfig)) :
    ∀ current : List (String × UserConfig),
      k ∈ (removeLoop removeOk panel current).1.map Prod.fst ↔
        k ∈ current.map Prod.fst ∧ k ∈ panel.map Prod.fst := by
  intro current
  induction current with
  | nil => simp [removeLoop]
  | cons p rest ih =>
    obtain ⟨email, u⟩ := p
    rcases hl : mapLookup email panel with _ | v
    · have hnm : email ∉ panel.map Prod.fst := by
        rw [← mapLookup_isSome_iff, hl]; simp
      simp only [removeLoop, hl, hrem]
      simp only [if_true, ih, List.map_cons, List.mem_cons]
      constructor
      · tauto
      · rintro ⟨h | h, h2⟩
        · exact absurd (h ▸ h2) hnm
        · exact ⟨h, h2⟩
    · have hmem : email ∈ panel.map Prod.fst := by
        rw [← mapLookup_isSome_iff, hl]; rfl
      simp only [removeLoop, hl, ih, List.map_cons, List.mem_cons]
      constructor
      · rintro (h | ⟨h1, h2⟩)
        · exact ⟨Or.inl h, h ▸ hmem⟩
        · exact ⟨Or.inr h1, h2⟩
      · rintro ⟨h | h, h2⟩
        · exact Or.inl h
        · exact Or.inr ⟨h, h2⟩

theorem removeLoop_noop (removeOk : String → Bool)
    (panel : List (String × UserConfig)) :
    ∀ current : List (String × UserConfig),
      (∀ p ∈ current, (mapLookup p.1 panel).isSome) →
      removeLoop removeOk panel current = (current, [], 0) := by
  intro current
  induction current with
  | nil => intro _; rfl
  | cons p rest ih =>
    intro hall
    obtain ⟨email, u⟩ := p
    have h1 : (mapLookup email panel).isSome := hall (email, u) (List.mem_cons_self _ _)
    rcases hl : mapLookup email panel with _ | v
    · rw [hl] at h1; exact absurd h1 (by simp)
    · have ihr : removeLoop removeOk panel rest = (rest, [], 0) :=
        ih (fun q hq => hall q (List.mem_cons_of_mem _ hq))
      simp only [removeLoop, hl, ihr]

/-- Claim C1 (convergence of reconciliation): starting from an empty
`currentUsers`, if the fetch succeeds with desired set `users` and every
engine `AddUser` call succeeds, then after one `syncUsers` pass the set of
identifiers in `currentUsers` equals the set of identifiers in `users`. -/
theorem syncUsers_convergence (users : List UserConfig)
    (addOk : XrayUser → Bool) (removeOk : String → Bool)
    (protocol : String) (realityEnabled : Bool)
    (hadd : ∀ xu, addOk xu = true) (e : String) :
    e ∈ (syncUsers (.ok users) [] addOk removeOk protocol realityEnabled).currentUsers.map
        Prod.fst ↔
      e ∈ users.map UserConfig.Email := by
  simp only [syncUsers]
  set panel := buildPanelUsers users with hpanel
  set ra := addLoop addOk protocol realityEnabled panel [] with hra
  have hkeys : ∀ k, k ∈ ra.1.map Prod.fst ↔ k ∈ panel.map Prod.fst := by
    intro k
    rw [hra, mem_keys_addLoop addOk protocol realityEnabled hadd]
    simp
  have hnoop : removeLoop removeOk panel ra.1 = (ra.1, [], 0) := by
    apply removeLoop_noop
    intro p hp
    rw [mapLookup_isSome_iff]
    exact (hkeys p.1).1 (List.mem_map.2 ⟨p, hp, rfl⟩)
  rw [hnoop]
  rw [hkeys e, hpanel, mem_keys_buildPanelUsers]

/-- Sample desired identity used by concrete witnesses below. -/
def sampleUser : UserConfig :=
  { UserID := 1, Email := "a", UUID := "u", Status := "active",
    DataLimit := 0, DataUsed := 0 }

/-- Concrete witness for claim C1. -/
theorem syncUsers_convergence_witness :
    ("a" ∈ (syncUsers (.ok [sampleUser]) [] (fun _ => true) (fun _ => true)
          "vless" false).currentUsers.map Prod.fst ↔
      "a" ∈ [sampleUser].map UserConfig.Email) :=
  syncUsers_convergence [sampleUser] _ _ "vless" false (fun _ => rfl) "a"

/-- After one `syncUsers` pass in which every engine call succeeds, the key
set of `currentUsers` is exactly the key set of the fetched `panelUsers`. -/
theorem syncUsers_allOk_keys (users : List UserConfig)
    (cur0 : List (String × UserConfig)) (protocol : String) (realityEnabled : Bool)
    (k : String) :
    k ∈ (syncUsers (.ok users) cur0 (fun _ => true) (fun _ => true) protocol
        realityEnabled).currentUsers.map Prod.fst ↔
      k ∈ (buildPanelUsers users).map Prod.fst := by
  simp only [syncUsers]
  rw [mem_keys_removeLoop _ (fun _ => rfl),
    mem_keys_addLoop _ _ _ (fun _ => rfl)]
  tauto

/-- Claim C2 (idempotence of reconciliation): after a fully successful pass
(from any prior `currentUsers`) on desired set `users`, a second pass on the
same desired set issues zero `AddUser` and zero `RemoveUser` engine calls and
leaves `currentUsers` unchanged. -/
theorem syncUsers_idempotent (users : List UserConfig)
    (cur0 : List (String × UserConfig))
    (addOk : XrayUser → Bool) (removeOk : String → Bool)
    (protocol : String) (realityEnabled : Bool) :
    (syncUsers (.ok users)
        (syncUsers (.ok users) cur0 (fun _ => true) (fun _ => true) protocol
          realityEnabled).currentUsers
        addOk removeOk protocol realityEnabled).addCalls = [] ∧
    (syncUsers (.ok users)
        (syncUsers (.ok users) cur0 (fun _ => true) (fun _ => true) protocol
          realityEnabled).currentUsers
        addOk removeOk protocol realityEnabled).removeCalls = [] ∧
    (syncUsers (.ok users)
        (syncUsers (.ok users) cur0 (fun _ => true) (fun _ => true) protocol
          realityEnabled).currentUsers
        addOk removeOk protocol realityEnabled).currentUsers =
      (syncUsers (.ok users) cur0 (fun _ => true) (fun _ => true) protocol
        realityEnabled).currentUsers := by
  set cur1 := (syncUsers (.ok users) cur0 (fun _ => true) (fun _ => true) protocol
    realityEnabled).currentUsers with hcur1
  have hkeys : ∀ k, k ∈ cur1.map Prod.fst ↔ k ∈ (buildPanelUsers users).map Prod.fst :=
    fun k => syncUsers_allOk_keys users cur0 protocol realityEnabled k
  have hnoopAdd : addLoop addOk protocol realityEnabled (buildPanelUsers users) cur1 =
      (cur1, [], 0) := by
    apply addLoop_noop
    intro p hp
    rw [mapLookup_isSome_iff]
    exact (hkeys p.1).2 (List.mem_map.2 ⟨p, hp, rfl⟩)
  have hnoopRem : removeLoop removeOk (buildPanelUsers users) cur1 = (cur1, [], 0) := by
    apply removeLoop_noop
    intro p hp
    rw [mapLookup_isSome_iff]
    exact (hkeys p.1).1 (List.mem_map.2 ⟨p, hp, rfl⟩)
  simp [syncUsers, hnoopAdd, hnoopRem]

/-- Claim C9 (fetch-failure atomicity): when the fetch of the desired set
fails, `syncUsers` returns the failure, issues no engine calls and leaves
`currentUsers` exactly as it was. -/
theorem syncUsers_fetch_failure (msg : String)
    (current : List (String × UserConfig))
    (addOk : XrayUser → Bool) (removeOk : String → Bool)
    (protocol : String) (realityEnabled : Bool) :
    syncUsers (.error msg) current addOk removeOk protocol realityEnabled =
      { result := .error msg, currentUsers := current, addCalls := [],
        removeCalls := [], added := 0, removed := 0 } := rfl

/-! ## Activity tracking (`internal/agent/activity.go`)

Timestamps are seconds; `LastSeen = none` models Go's zero `time.Time`.
`time.Since(t) < 2*time.Minute` becomes `now - t < 120`.  Within one tick
the single `now` stands for both `time.Now()` in `trackActivity` and the
`time.Since` reads in `reportActivity`, which in the source differ only by
the tick's own execution time. -/

/-- `models.XrayStats`: cumulative per-user counters from xray-core. -/
structure XrayStats where
  UploadBytes : Int
  DownloadBytes : Int
deriving DecidableEq, Repr

/-- `agent.UserActivityState`: the per-user `ActivityRecord`. -/
structure UserActivityState where
  Email : String
  LastSeen : Option Nat
  LastUplink : Int
  LastDownlink : Int
  IsActive : Bool
deriving DecidableEq, Repr

/-- The per-user loop of `Agent.trackActivity`: query counters (`stats`,
`none` = engine error, skip the user), create the cache record on first
observation, compare deltas, update `IsActive`/`LastSeen`, and always
overwrite the stored baselines.  Returns the updated cache and the
`activeUsers` identifiers. -/
def trackGo (stats : String → Option XrayStats) (now : Nat) :
    List String → List (String × UserActivityState) →
    List (String × UserActivityState) × List String
  | [], cache => (cache, [])
  | email :: rest, cache =>
    match stats email with
    | none => trackGo stats now rest cache
    | some s =>
      let p : UserActivityState × List (String × UserActivityState) :=
        match mapLookup email cache with
        | some st => (st, cache)
        | none =>
          let st : UserActivityState :=
            { Email := email, LastSeen := none, LastUplink := s.UploadBytes,
              LastDownlink := s.DownloadBytes, IsActive := false }
          (st, mapInsert email st cache)
      let state0 := p.1
      let uplinkDelta := s.UploadBytes - state0.LastUplink
      let downlinkDelta := s.DownloadBytes - state0.LastDownlink
      let state1 :=
        if uplinkDelta > 0 ∨ downlinkDelta > 0 then
          { state0 with IsActive := true, LastSeen := some now }
        else
          { state0 with IsActive := false }
      let state2 :=
        { state1 with LastUplink := s.UploadBytes, LastDownlink := s.DownloadBytes }
      let r := trackGo stats now rest (mapInsert email state2 p.2)
      if uplinkDelta > 0 ∨ downlinkDelta > 0 then (r.1, email :: r.2) else (r.1, r.2)

/-- Shallow embedding of `Agent.trackActivity`: with no provisioned users it
returns `nil` and leaves the cache untouched; otherwise it runs the per-user
loop over the provisioned identifiers. -/
def trackActivity (users : List String) (stats : String → Option XrayStats)
    (cache : List (String × UserActivityState)) (now : Nat) :
    List (String × UserActivityState) × List String :=
  if users.isEmpty then (cache, []) else trackGo stats now users cache

/-- `models.UserActivityReport`: one entry of the activity report. -/
structure UserActivityReport where
  Email : String
  LastSeen : Nat
  IsOnline : Bool
  DeviceCount : Int
  DeviceIPs : List String
deriving DecidableEq, Repr

/-- The report-building loop of `Agent.reportActivity`: every cache record
with a nonzero `LastSeen` is reported; `IsOnline` is `IsActive` or
`now - LastSeen < 120` seconds; for online users the engine's online-IP
list (`ips`, `none` = engine error) fills the device fields. -/
def buildReports (ips : String → Option (List String)) (now : Nat) :
    List (String × UserActivityState) → List UserActivityReport
  | [] => []
  | (_, st) :: rest =>
    match st.LastSeen with
    | none => buildReports ips now rest
    | some t =>
      let isOnline := st.IsActive || decide (now - t < 120)
      let base : UserActivityReport :=
        { Email := st.Email, LastSeen := t, IsOnline := isOnline,
          DeviceCount := 0, DeviceIPs := [] }
      let report :=
        if isOnline then
          match ips st.Email with
          | none => base
          | some l =>
            if l.length > 0 then
              { base with DeviceIPs := l, DeviceCount := (l.length : Int) }
            else base
        else base
      report :: buildReports ips now rest

/-- Observable outcome of one `Agent.reportActivity` tick. -/
structure ActivityOutcome where
  cache : List (String × UserActivityState)
  activeUsers : List String
  activities : List UserActivityReport
  sent : Bool
  result : Except String Unit

/-- Shallow embedding of `Agent.reportActivity`: track activity, build the
report entries, and send them to the panel unless the list is empty.
`sendOk` is the success of the external `panelClient.ReportActivity` call.
Note that the tick performs no garbage collection of the cache. -/
def reportActivity (users : List String) (stats : String → Option XrayStats)
    (ips : String → Option (List String))
    (cache : List (String × UserActivityState)) (now : Nat) (sendOk : Bool) :
    ActivityOutcome :=
  let tr := trackActivity users stats cache now
  let acts := buildReports ips now tr.1
  if acts.isEmpty then
    { cache := tr.1, activeUsers := tr.2, activities := acts,
      sent := false, result := .ok () }
  else
    { cache := tr.1, activeUsers := tr.2, activities := acts, sent := true,
      result := if sendOk then .ok () else .error "activity report failed" }

/-- Shallow embedding of `Agent.cleanupActivityCache`: drop cache entries
whose identifier is no longer in `currentUsers`.  This function is defined
in the source (`activity.go`) but has no call site anywhere in the agent. -/
def cleanupActivityCache (users : List String)
    (cache : List (String × UserActivityState)) :
    List (String × UserActivityState) :=
  cache.filter (fun p => users.contains p.1)

theorem reportActivity_cache_eq (users : List String)
    (stats : String → Option XrayStats) (ips : String → Option (List String))
    (cache : List (String × UserActivityState)) (now : Nat) (sendOk : Bool) :
    (reportActivity users stats ips cache now sendOk).cache =
      (trackActivity users stats cache now).1 := by
  simp only [reportActivity]
  split <;> rfl

theorem reportActivity_activities_eq (users : List String)
    (stats : String → Option XrayStats) (ips : String → Option (List String))
    (cache : List (String × UserActivityState)) (now : Nat) (sendOk : Bool) :
    (reportActivity users stats ips cache now sendOk).activities =
      buildReports ips now (trackActivity users stats cache now).1 := by
  simp only [reportActivity]
  split <;> rfl

/-- Claim C5 (activity delta semantics): for a tracked identity whose
counter query returns `(u, d)`, the cache record after the tick always has
baselines `(u, d)`; on first observation it is created inactive with zero
`LastSeen`; with an existing record it becomes active with `LastSeen = now`
exactly when one counter strictly grew, and otherwise (in particular when
the sample equals the stored baselines) stays inactive with `LastSeen`
unchanged. -/
theorem trackActivity_delta (email : String) (stats : String → Option XrayStats)
    (cache : List (String × UserActivityState)) (now : Nat) (u d : Int)
    (hs : stats email = some ⟨u, d⟩) :
    ∃ st, mapLookup email (trackActivity [email] stats cache now).1 = some st ∧
      st.LastUplink = u ∧ st.LastDownlink = d ∧
      (match mapLookup email cache with
       | none => st.IsActive = false ∧ st.LastSeen = none
       | some old =>
         if u > old.LastUplink ∨ d > old.LastDownlink then
           st.IsActive = true ∧ st.LastSeen = some now
         else
           st.IsActive = false ∧ st.LastSeen = old.LastSeen) := by
  simp only [trackActivity, List.isEmpty_cons, Bool.false_eq_true, if_false]
  rcases hc : mapLookup email cache with _ | old
  · have hcond : ¬ (u - u > 0 ∨ d - d > 0) := by simp
    simp only [trackGo, hs, hc, if_neg hcond]
    exact ⟨_, mapLookup_mapInsert_self _ _ _, rfl, rfl, by simp [hc]⟩
  · have hcond : (u - old.LastUplink > 0 ∨ d - old.LastDownlink > 0) ↔
        (u > old.LastUplink ∨ d > old.LastDownlink) :=
      or_congr sub_pos sub_pos
    simp only [trackGo, hs, hc, hcond]
    by_cases hgt : u > old.LastUplink ∨ d > old.LastDownlink
    · simp only [if_pos hgt]
      exact ⟨_, mapLookup_mapInsert_self _ _ _, rfl, rfl,
        by simp [hc, if_pos hgt]⟩
    · simp only [if_neg hgt]
      exact ⟨_, mapLookup_mapInsert_self _ _ _, rfl, rfl,
        by simp [hc, if_neg hgt]⟩

/-- Concrete witness for claim C5: baseline `(100, 50)`, sample `(150, 50)`. -/
theorem trackActivity_delta_witness :
    ∃ st, mapLookup "x"
        (trackActivity ["x"] (fun _ => some ⟨150, 50⟩)
          [("x", { Email := "x", LastSeen := some 7, LastUplink := 100,
                   LastDownlink := 50, IsActive := false })] 99).1 = some st ∧
      st.LastUplink = 150 ∧ st.LastDownlink = 50 ∧
      (match mapLookup "x"
          [(("x", { Email := "x", LastSeen := some 7, LastUplink := 100,
                    LastDownlink := 50, IsActive := false }) : String × UserActivityState)] with
       | none => st.IsActive = false ∧ st.LastSeen = none
       | some old =>
         if (150 : Int) > old.LastUplink ∨ (50 : Int) > old.LastDownlink then
           st.IsActive = true ∧ st.LastSeen = some 99
         else
           st.IsActive = false ∧ st.LastSeen = old.LastSeen) :=
  trackActivity_delta "x" _ _ 99 150 50 rfl

theorem buildReports_mem (ips : String → Option (List String)) (now : Nat) :
    ∀ (cache : List (String × UserActivityState)) (k : String)
      (st : UserActivityState) (t : Nat),
      (k, st) ∈ cache → st.LastSeen = some t →
      ∃ r ∈ buildReports ips now cache,
        r.Email = st.Email ∧ r.LastSeen = t ∧
        r.IsOnline = (st.IsActive || decide (now - t < 120)) := by
  intro cache
  induction cache with
  | nil => intro k st t h; exact absurd h (List.not_mem_nil _)
  | cons p rest ih =>
    intro k st t hmem hls
    obtain ⟨k2, st2⟩ := p
    rcases List.mem_cons.1 hmem with h | h
    · obtain ⟨hk, hst⟩ := Prod.mk.injEq .. ▸ h
      subst hst
      simp only [buildReports, hls]
      refine ⟨_, List.mem_cons_self _ _, ?_⟩
      rcases hon : st.IsActive || decide (now - t < 120)
      · simp [hon]
      · simp only [hon, if_true, if_pos]
        rcases ips st.Email with _ | l
        · simp
        · by_cases hl : l.length > 0 <;> simp [hl]
    · obtain ⟨r, hr, hprops⟩ := ih k st t h hls
      refine ⟨r, ?_, hprops⟩
      simp only [buildReports]
      rcases st2.LastSeen with _ | t2
      · exact hr
      · exact List.mem_cons_of_mem _ hr

/-- Claim C6 (online threshold): every cache record with a nonzero
`LastSeen` yields a report entry whose `IsOnline` flag is exactly
`IsActive || (now - lastSeen < 120)` seconds — so an inactive identity last
seen 90 seconds ago is reported online and one last seen 150 seconds ago is
reported offline. -/
theorem reportActivity_online (users : List String)
    (stats : String → Option XrayStats) (ips : String → Option (List String))
    (cache : List (String × UserActivityState)) (now : Nat) (sendOk : Bool)
    (k : String) (st : UserActivityState) (t : Nat)
    (hmem : (k, st) ∈ (reportActivity users stats ips cache now sendOk).cache)
    (hls : st.LastSeen = some t) :
    ∃ r ∈ (reportActivity users stats ips cache now sendOk).activities,
      r.Email = st.Email ∧ r.LastSeen = t ∧
      r.IsOnline = (st.IsActive || decide (now - t < 120)) := by
  rw [reportActivity_cache_eq] at hmem
  rw [reportActivity_activities_eq]
  exact buildReports_mem ips now _ k st t hmem hls

/-- Concrete witness for claim C6: an inactive identity last seen 90
seconds ago is reported, and reported online. -/
theorem reportActivity_online_witness :
    ∃ r ∈ (reportActivity [] (fun _ => none) (fun _ => none)
        [("a", { Email := "a", LastSeen := some 0, LastUplink := 0,
                 LastDownlink := 0, IsActive := false })] 90 true).activities,
      r.Email = "a" ∧ r.LastSeen = 0 ∧ r.IsOnline = (false || decide (90 - 0 < 120)) :=
  reportActivity_online [] _ _ _ 90 true "a"
    { Email := "a", LastSeen := some 0, LastUplink := 0,
      LastDownlink := 0, IsActive := false } 0 (by decide) rfl

/-- A stale `ActivityRecord`: its identifier is absent from
`currentUsers`, and it has been seen (10 seconds before the tick). -/
def staleCache : List (String × UserActivityState) :=
  [("a", { Email := "a", LastSeen := some 100, LastUplink := 5,
           LastDownlink := 5, IsActive := false })]

/-- Claim C4 evaluated at its failing input: with `currentUsers` empty and
a stale cache record for `"a"`, a full activity tick leaves the record in
the cache (the tick performs no garbage collection — `cleanupActivityCache`
is defined in the source but never called), even though
`cleanupActivityCache` would have dropped it. -/
theorem activity_cache_not_collected :
    (reportActivity [] (fun _ => none) (fun _ => none) staleCache 110 true).cache =
      staleCache ∧
    cleanupActivityCache []
      (reportActivity [] (fun _ => none) (fun _ => none) staleCache 110 true).cache =
      [] := by
  constructor <;> rfl

/-! ## Startup configuration resolution (`internal/agent/traffic.go`,
`config/config.go`)

`XrayConfig.Protocol`, `ListenPort`, `TLSEnabled`, `SNI`, `InboundTag` and
the Reality fields carry the yaml tag `-` in the source: the local
configuration file can never set them, so `configLoad` leaves them at
their Go zero values.  `Agent.Start` then either overwrites them from the
panel's node configuration or, when that fetch fails, keeps the local
values as they are. -/

/-- The subset of `config.XrayConfig` relevant to startup resolution. -/
structure XrayConfig where
  APIAddress : String
  APIPort : Int
  Protocol : String
  ListenAddress : String
  ListenPort : Int
  TLSEnabled : Bool
  SNI : String
  InboundTag : String
  RealityEnabled : Bool
  RealityDest : String
  RealityServerNames : String
  RealityPrivateKey : String
  RealityPublicKey : String
  RealityShortIds : String
  RealityKeyPath : String
deriving DecidableEq, Repr

/-- The fields of the local yaml file that feed the
startup-relevant part of `XrayConfig` (`xray.api_address`,
`xray.api_port`, `files.reality_key`). -/
structure LocalFileConfig where
  apiAddress : String
  apiPort : Int
  realityKeyPath : String
deriving DecidableEq, Repr

/-- Shallow embedding of `config.Load` restricted to the startup-relevant
`XrayConfig` fields: yaml-visible fields come from the file, every field
tagged `yaml:"-"` stays at its zero value, `ListenAddress` is forced to
`0.0.0.0`, and the Reality key path defaults to `reality_private.key`. -/
def configLoad (f : LocalFileConfig) : XrayConfig :=
  { APIAddress := f.apiAddress, APIPort := f.apiPort,
    Protocol := "", ListenAddress := "0.0.0.0", ListenPort := 0,
    TLSEnabled := false, SNI := "", InboundTag := "",
    RealityEnabled := false, RealityDest := "", RealityServerNames := "",
    RealityPrivateKey := "", RealityPublicKey := "", RealityShortIds := "",
    RealityKeyPath :=
      if f.realityKeyPath ≠ "" then f.realityKeyPath else "reality_private.key" }

/-- `panel.NodeConfig`: the node configuration returned by the panel. -/
structure NodeConfigResp where
  Port : Int
  Protocol : String
  TLSEnabled : Bool
  SNI : String
  InboundTag : String
  APIPort : Int
  RealityEnabled : Bool
  RealityDest : String
  RealityServerNames : String
  RealityPrivateKey : String
  RealityPublicKey : String
  RealityShortIds : String
deriving DecidableEq, Repr

/-- `agent.RealityKeys` at the orchestrator level: Base64 strings. -/
structure RealityKeyStrings where
  PrivateKey : String
  PublicKey : String
deriving DecidableEq, Repr

/-- The `nodeConfig.APIPort > 0` update at the end of the panel branch of
`Agent.Start`. -/
def applyAPIPort (nc : NodeConfigResp) (x : XrayConfig) : XrayConfig :=
  if nc.APIPort > 0 then { x with APIPort := nc.APIPort } else x

/-- The configuration-resolution phase of `Agent.Start`: on fetch failure
fall back to the local configuration (only defaulting an empty
`InboundTag` to `inbound-vless`); on success copy the panel-owned fields,
default an empty `InboundTag` to `proxy`, and when Reality is enabled
validate that destination, server names and short IDs are nonempty —
returning a descriptive error otherwise — and install the locally
generated keypair (panel keys only as fallback). -/
def resolveConfig (fetched : Except String NodeConfigResp)
    (realityKeys : Option RealityKeyStrings) (x : XrayConfig) :
    Except String XrayConfig :=
  match fetched with
  | .error _ =>
    .ok (if x.InboundTag = "" then { x with InboundTag := "inbound-vless" } else x)
  | .ok nc =>
    let x1 := { x with Protocol := nc.Protocol, ListenPort := nc.Port,
                       TLSEnabled := nc.TLSEnabled, SNI := nc.SNI,
                       InboundTag := nc.InboundTag }
    let x2 := if x1.InboundTag = "" then { x1 with InboundTag := "proxy" } else x1
    if nc.RealityEnabled then
      if nc.RealityDest = "" then
        .error "Reality protocol is enabled but Target Destination is not configured in the panel"
      else if nc.RealityServerNames = "" then
        .error "Reality protocol is enabled but Server Names is not configured in the panel"
      else if nc.RealityShortIds = "" then
        .error "Reality protocol is enabled but Short IDs is not configured in the panel"
      else
        let x3 := { x2 with RealityEnabled := true, RealityDest := nc.RealityDest,
                            RealityServerNames := nc.RealityServerNames }
        let x4 := match realityKeys with
          | some k => { x3 with RealityPrivateKey := k.PrivateKey,
                                RealityPublicKey := k.PublicKey }
          | none => { x3 with RealityPrivateKey := nc.RealityPrivateKey,
                              RealityPublicKey := nc.RealityPublicKey }
        .ok (applyAPIPort nc { x4 with RealityShortIds := nc.RealityShortIds })
    else
      .ok (applyAPIPort nc { x2 with RealityEnabled := false })

/-- Observable outcome of `Agent.Start`. -/
structure StartOutcome where
  result : Except String Unit
  cfg : XrayConfig
  engineStartCalled : Bool

/-- Shallow embedding of `Agent.Start` around its decision structure: key
initialisation and geo-data setup only warn on failure (hence
`realityKeys : Option`), configuration resolution may fail fatally before
the engine is started, and only then is `xrayManager.Start` called
(success given by `engineOk`); a failing initial user sync is logged, not
fatal, so it does not affect the outcome. -/
def agentStart (fetched : Except String NodeConfigResp)
    (realityKeys : Option RealityKeyStrings) (x : XrayConfig)
    (engineOk : Bool) : StartOutcome :=
  match resolveConfig fetched realityKeys x with
  | .error e => { result := .error e, cfg := x, engineStartCalled := false }
  | .ok x2 =>
    { result := if engineOk then .ok () else .error "failed to start xray-core",
      cfg := x2, engineStartCalled := true }

/-- Claim C3 (configuration fallback): when the startup fetch of the node
configuration fails, the resolved protocol and listen port are exactly the
local configuration's values, startup succeeds, and the engine is
started. -/
theorem agentStart_fallback (f : LocalFileConfig) (msg : String)
    (realityKeys : Option RealityKeyStrings) :
    (agentStart (.error msg) realityKeys (configLoad f) true).result = .ok () ∧
    (agentStart (.error msg) realityKeys (configLoad f) true).engineStartCalled = true ∧
    (agentStart (.error msg) realityKeys (configLoad f) true).cfg.Protocol =
      (configLoad f).Protocol ∧
    (agentStart (.error msg) realityKeys (configLoad f) true).cfg.ListenPort =
      (configLoad f).ListenPort := by
  simp [agentStart, resolveConfig, configLoad]

/-- Claim C8 (fatal configuration error): when the panel-supplied node
configuration enables Reality but leaves the destination (or the server
names, or the short IDs) empty, `Agent.Start` returns an error and the
engine start is never called. -/
theorem agentStart_reality_fatal (nc : NodeConfigResp)
    (realityKeys : Option RealityKeyStrings) (x : XrayConfig) (engineOk : Bool)
    (hre : nc.RealityEnabled = true)
    (hempty : nc.RealityDest = "" ∨ nc.RealityServerNames = "" ∨
      nc.RealityShortIds = "") :
    (∃ e, (agentStart (.ok nc) realityKeys x engineOk).result = .error e) ∧
    (agentStart (.ok nc) realityKeys x engineOk).engineStartCalled = false := by
  have hres : ∃ e, resolveConfig (.ok nc) realityKeys x = .error e := by
    rcases hempty with h | h | h
    · exact ⟨"Reality protocol is enabled but Target Destination is not configured in the panel",
        by simp [resolveConfig, hre, h]⟩
    · by_cases hd : nc.RealityDest = ""
      · exact ⟨"Reality protocol is enabled but Target Destination is not configured in the panel",
          by simp [resolveConfig, hre, hd]⟩
      · exact ⟨"Reality protocol is enabled but Server Names is not configured in the panel",
          by simp [resolveConfig, hre, hd, h]⟩
    · by_cases hd : nc.RealityDest = ""
      · exact ⟨"Reality protocol is enabled but Target Destination is not configured in the panel",
          by simp [resolveConfig, hre, hd]⟩
      · by_cases hsn : nc.RealityServerNames = ""
        · exact ⟨"Reality protocol is enabled but Server Names is not configured in the panel",
            by simp [resolveConfig, hre, hd, hsn]⟩
        · exact ⟨"Reality protocol is enabled but Short IDs is not configured in the panel",
            by simp [resolveConfig, hre, hd, hsn, h]⟩
  obtain ⟨e, he⟩ := hres
  refine ⟨⟨e, ?_⟩, ?_⟩ <;> simp [agentStart, he]

/-- Sample panel node configuration with Reality enabled but an empty
destination, used by the witness for claim C8. -/
def sampleBadNodeConfig : NodeConfigResp :=
  { Port := 443, Protocol := "vless", TLSEnabled := false, SNI := "",
    InboundTag := "t", APIPort := 0, RealityEnabled := true,
    RealityDest := "", RealityServerNames := "sn", RealityPrivateKey := "",
    RealityPublicKey := "", RealityShortIds := "sid" }

/-- Sample local configuration file contents. -/
def sampleLocalFile : LocalFileConfig :=
  { apiAddress := "127.0.0.1", apiPort := 10085, realityKeyPath := "" }

/-- Concrete witness for claim C8: Reality enabled with empty destination. -/
theorem agentStart_reality_fatal_witness :
    (∃ e, (agentStart (.ok sampleBadNodeConfig) none (configLoad sampleLocalFile)
        true).result = .error e) ∧
    (agentStart (.ok sampleBadNodeConfig) none (configLoad sampleLocalFile)
        true).engineStartCalled = false :=
  agentStart_reality_fatal sampleBadNodeConfig none (configLoad sampleLocalFile)
    true rfl (Or.inl rfl)

/-! ## Traffic reporting (`internal/agent/traffic.go`, `Agent.reportTraffic`) -/

/-- `models.UserTrafficReport`: one entry of the traffic report. -/
structure UserTrafficReport where
  UserEmail : String
  UploadBytes : Int
  DownloadBytes : Int
deriving DecidableEq, Repr

/-- The per-user collection loop of `Agent.reportTraffic`: query counters
(`stats`, `none` = engine error, skip the user); include the user exactly
when a counter is strictly positive, and issue a `ResetUserStats` call for
exactly the included users.  Returns the report entries and the emails for
which a reset call was issued. -/
def collectTraffic (stats : String → Option XrayStats) :
    List String → List UserTrafficReport × List String
  | [] => ([], [])
  | email :: rest =>
    match stats email with
    | none => collectTraffic stats rest
    | some s =>
      if s.UploadBytes > 0 ∨ s.DownloadBytes > 0 then
        let r := collectTraffic stats rest
        ({ UserEmail := email, UploadBytes := s.UploadBytes,
           DownloadBytes := s.DownloadBytes } :: r.1, email :: r.2)
      else collectTraffic stats rest

/-- Observable outcome of one `Agent.reportTraffic` tick. -/
structure TrafficOutcome where
  traffic : List UserTrafficReport
  resetCalls : List String
  sent : Bool
  result : Except String Unit

/-- Shallow embedding of `Agent.reportTraffic`: early return when no users
are provisioned, collect per-user traffic, and send the report to the panel
only when at least one entry was collected.  `sendOk` is the success of the
external `panelClient.ReportTraffic` call. -/
def reportTraffic (users : List String) (stats : String → Option XrayStats)
    (sendOk : Bool) : TrafficOutcome :=
  if users.isEmpty then
    { traffic := [], resetCalls := [], sent := false, result := .ok () }
  else
    let c := collectTraffic stats users
    if c.1.isEmpty then
      { traffic := c.1, resetCalls := c.2, sent := false, result := .ok () }
    else
      { traffic := c.1, resetCalls := c.2, sent := true,
        result := if sendOk then .ok () else .error "traffic report failed" }

theorem collectTraffic_mem (stats : String → Option XrayStats) :
    ∀ (users : List String) (e : String),
      (∃ r ∈ (collectTraffic stats users).1, r.UserEmail = e) ↔
        (e ∈ users ∧ ∃ s, stats e = some s ∧
          (s.UploadBytes > 0 ∨ s.DownloadBytes > 0)) := by
  intro users
  induction users with
  | nil => intro e; simp [collectTraffic]
  | cons email rest ih =>
    intro e
    rcases hst : stats email with _ | s
    · simp only [collectTraffic, hst, ih, List.mem_cons]
      constructor
      · rintro ⟨he, hs⟩; exact ⟨Or.inr he, hs⟩
      · rintro ⟨he | he, hs⟩
        · subst he
          obtain ⟨s2, hs2, _⟩ := hs
          rw [hst] at hs2; cases hs2
        · exact ⟨he, hs⟩
    · by_cases hpos : s.UploadBytes > 0 ∨ s.DownloadBytes > 0
      · simp only [collectTraffic, hst, if_pos hpos]
        constructor
        · rintro ⟨r, hr, hre⟩
          rcases List.mem_cons.1 hr with h | h
          · subst h
            exact ⟨List.mem_cons.2 (Or.inl hre.symm), s, hre ▸ hst, hpos⟩
          · obtain ⟨he, hs⟩ := (ih e).1 ⟨r, h, hre⟩
            exact ⟨List.mem_cons.2 (Or.inr he), hs⟩
        · rintro ⟨he, hs⟩
          rcases List.mem_cons.1 he with h | h
          · subst h
            exact ⟨_, List.mem_cons_self _ _, rfl⟩
          · obtain ⟨r, hr, hre⟩ := (ih e).2 ⟨h, hs⟩
            exact ⟨r, List.mem_cons_of_mem _ hr, hre⟩
      · simp only [collectTraffic, hst, if_neg hpos, ih, List.mem_cons]
        constructor
        · rintro ⟨he, hs⟩; exact ⟨Or.inr he, hs⟩
        · rintro ⟨he | he, hs⟩
          · subst he
            obtain ⟨s2, hs2, hp2⟩ := hs
            rw [hst] at hs2
            cases hs2
            exact absurd hp2 hpos
          · exact ⟨he, hs⟩

theorem collectTraffic_resets (stats : String → Option XrayStats) :
    ∀ users : List String,
      (collectTraffic stats users).2 =
        (collectTraffic stats users).1.map UserTrafficReport.UserEmail := by
  intro users
  induction users with
  | nil => rfl
  | cons email rest ih =>
    rcases hst : stats email with _ | s
    · simp only [collectTraffic, hst, ih]
    · by_cases hpos : s.UploadBytes > 0 ∨ s.DownloadBytes > 0
      · simp only [collectTraffic, hst, if_pos hpos, ih, List.map_cons]
      · simp only [collectTraffic, hst, if_neg hpos, ih]

theorem reportTraffic_fields (users : List String)
    (stats : String → Option XrayStats) (sendOk : Bool) :
    (reportTraffic users stats sendOk).traffic = (collectTraffic stats users).1 ∧
    (reportTraffic users stats sendOk).resetCalls = (collectTraffic stats users).2 ∧
    ((reportTraffic users stats sendOk).traffic = [] →
      (reportTraffic users stats sendOk).sent = false) := by
  cases users with
  | nil => simp [reportTraffic, collectTraffic]
  | cons u rest =>
    simp only [reportTraffic, List.isEmpty_cons, Bool.false_eq_true, if_false]
    split
    · exact ⟨rfl, rfl, fun _ => rfl⟩
    · rename_i hne
      refine ⟨rfl, rfl, fun h => absurd ?_ hne⟩
      have h2 : (collectTraffic stats (u :: rest)).1 = [] := h
      rw [h2]
      rfl

/-- Claim C10 (traffic-report inclusion and reset): a user appears in the
traffic report exactly when its counter query succeeds and one of the
counters is strictly positive; counter resets are issued for exactly the
reported users; and when nothing qualifies (in particular when no users
are provisioned) no request is sent to the panel. -/
theorem reportTraffic_inclusion (users : List String)
    (stats : String → Option XrayStats) (sendOk : Bool) :
    (∀ e, (∃ r ∈ (reportTraffic users stats sendOk).traffic, r.UserEmail = e) ↔
       (e ∈ users ∧ ∃ s, stats e = some s ∧
         (s.UploadBytes > 0 ∨ s.DownloadBytes > 0))) ∧
    (reportTraffic users stats sendOk).resetCalls =
      (reportTraffic users stats sendOk).traffic.map UserTrafficReport.UserEmail ∧
    ((reportTraffic users stats sendOk).traffic = [] →
      (reportTraffic users stats sendOk).sent = false) := by
  obtain ⟨h1, h2, h3⟩ := reportTraffic_fields users stats sendOk
  refine ⟨?_, ?_, h3⟩
  · intro e
    rw [h1]
    exact collectTraffic_mem stats users e
  · rw [h1, h2]
    exact collectTraffic_resets stats users

/-- Concrete witness for claim C10. -/
theorem reportTraffic_inclusion_witness :
    ((∃ r ∈ (reportTraffic ["a"] (fun _ => some ⟨3, 0⟩) true).traffic,
        r.UserEmail = "a") ↔
      ("a" ∈ ["a"] ∧ ∃ s, (fun (_ : String) => some (⟨3, 0⟩ : XrayStats)) "a" = some s ∧
        (s.UploadBytes > 0 ∨ s.DownloadBytes > 0))) :=
  (reportTraffic_inclusion ["a"] (fun _ => some ⟨3, 0⟩) true).1 "a"

/-! ## Reality keypair lifecycle (`internal/agent/reality.go`)

Byte strings are `List Nat` with every element below 256.  Go's
`base64.RawURLEncoding` (URL alphabet, no padding, default non-strict
decoder) is modelled on ASCII codes.  The x25519 scalar-base
multiplication of `golang.org/x/crypto/curve25519` is an external pure
function and enters as the parameter `sbm`; `crypto/rand` enters as the
byte list `rand`; the key file is an `Option (List Nat)` holding the
content at the configured path. -/

/-- ASCII code of the URL-alphabet Base64 digit with value `i < 64`. -/
def b64Char (i : Nat) : Nat :=
  if i < 26 then 65 + i
  else if i < 52 then 97 + (i - 26)
  else if i < 62 then 48 + (i - 52)
  else if i = 62 then 45
  else 95

/-- Value of a URL-alphabet Base64 digit from its ASCII code (`none` for a
character outside the alphabet). -/
def b64Digit (c : Nat) : Option Nat :=
  if 65 ≤ c ∧ c ≤ 90 then some (c - 65)
  else if 97 ≤ c ∧ c ≤ 122 then some (26 + (c - 97))
  else if 48 ≤ c ∧ c ≤ 57 then some (52 + (c - 48))
  else if c = 45 then some 62
  else if c = 95 then some 63
  else none

/-- Go `base64.RawURLEncoding.EncodeToString` on a byte list. -/
def b64Encode : List Nat → List Nat
  | b0 :: b1 :: b2 :: rest =>
    b64Char (b0 / 4) :: b64Char (b0 % 4 * 16 + b1 / 16) ::
      b64Char (b1 % 16 * 4 + b2 / 64) :: b64Char (b2 % 64) :: b64Encode rest
  | [b0, b1] => [b64Char (b0 / 4), b64Char (b0 % 4 * 16 + b1 / 16), b64Char (b1 % 16 * 4)]
  | [b0] => [b64Char (b0 / 4), b64Char (b0 % 4 * 16)]
  | [] => []

/-- Go `base64.RawURLEncoding.DecodeString` on a byte list (Go's default
decoder: a character outside the alphabet or a length of 1 mod 4 fails). -/
def b64Decode : List Nat → Option (List Nat)
  | c0 :: c1 :: c2 :: c3 :: rest =>
    match b64Digit c0, b64Digit c1, b64Digit c2, b64Digit c3, b64Decode rest with
    | some i0, some i1, some i2, some i3, some bs =>
      some ((i0 * 4 + i1 / 16) :: (i1 % 16 * 16 + i2 / 4) :: (i2 % 4 * 64 + i3) :: bs)
    | _, _, _, _, _ => none
  | [c0, c1, c2] =>
    match b64Digit c0, b64Digit c1, b64Digit c2 with
    | some i0, some i1, some i2 => some [i0 * 4 + i1 / 16, i1 % 16 * 16 + i2 / 4]
    | _, _, _ => none
  | [c0, c1] =>
    match b64Digit c0, b64Digit c1 with
    | some i0, some i1 => some [i0 * 4 + i1 / 16]
    | _, _ => none
  | [_] => none
  | [] => some []

theorem b64Digit_b64Char : ∀ i, i < 64 → b64Digit (b64Char i) = some i := by decide

theorem b64_roundtrip : ∀ l : List Nat, (∀ b ∈ l, b < 256) →
    b64Decode (b64Encode l) = some l := by
  intro l
  induction l using b64Encode.induct with
  | case1 b0 b1 b2 rest ih =>
    intro hl
    have h0 : b0 < 256 := hl b0 (by simp)
    have h1 : b1 < 256 := hl b1 (by simp)
    have h2 : b2 < 256 := hl b2 (by simp)
    have hrest := ih (fun b hb => hl b (by simp [hb]))
    have d0 := b64Digit_b64Char (b0 / 4) (by omega)
    have d1 := b64Digit_b64Char (b0 % 4 * 16 + b1 / 16) (by omega)
    have d2 := b64Digit_b64Char (b1 % 16 * 4 + b2 / 64) (by omega)
    have d3 := b64Digit_b64Char (b2 % 64) (by omega)
    simp only [b64Encode, b64Decode, d0, d1, d2, d3, hrest]
    simp only [Option.some.injEq, List.cons.injEq]
    exact ⟨by omega, by omega, by omega, trivial⟩
  | case2 b0 b1 =>
    intro hl
    have h0 : b0 < 256 := hl b0 (by simp)
    have h1 : b1 < 256 := hl b1 (by simp)
    have d0 := b64Digit_b64Char (b0 / 4) (by omega)
    have d1 := b64Digit_b64Char (b0 % 4 * 16 + b1 / 16) (by omega)
    have d2 := b64Digit_b64Char (b1 % 16 * 4) (by omega)
    simp only [b64Encode, b64Decode, d0, d1, d2]
    simp only [Option.some.injEq, List.cons.injEq]
    exact ⟨by omega, by omega, trivial⟩
  | case3 b0 =>
    intro hl
    have h0 : b0 < 256 := hl b0 (by simp)
    have d0 := b64Digit_b64Char (b0 / 4) (by omega)
    have d1 := b64Digit_b64Char (b0 % 4 * 16) (by omega)
    simp only [b64Encode, b64Decode, d0, d1]
    simp only [Option.some.injEq, List.cons.injEq]
    exact ⟨by omega, trivial⟩
  | case4 =>
    intro _
    rfl

/-- The clamp of the first private-key byte: `privateKey[0] &= 248`. -/
def clampFirstByte (b : Nat) : Nat := Nat.land b 248

/-- The clamp of the last private-key byte:
`privateKey[31] &= 127; privateKey[31] |= 64`. -/
def clampLastByte (b : Nat) : Nat := Nat.lor (Nat.land b 127) 64

/-- Apply `f` to the last element of a list. -/
def setLast (f : Nat → Nat) : List Nat → List Nat
  | [] => []
  | [b] => [f b]
  | b :: rest => b :: setLast f rest

/-- The standard curve25519 clamping performed by
`GenerateRealityKeypair` on the 32 random bytes (byte 0 and byte 31). -/
def clampPrivateKey : List Nat → List Nat
  | [] => []
  | b0 :: rest => setLast clampLastByte (clampFirstByte b0 :: rest)

set_option maxRecDepth 8192 in
theorem clampFirstByte_lt : ∀ b, b < 256 → clampFirstByte b < 256 := by decide

set_option maxRecDepth 8192 in
theorem clampLastByte_lt : ∀ b, b < 256 → clampLastByte b < 256 := by decide

theorem setLast_length (f : Nat → Nat) : ∀ l : List Nat, (setLast f l).length = l.length := by
  intro l
  induction l with
  | nil => rfl
  | cons b rest ih =>
    cases rest with
    | nil => rfl
    | cons b2 rest2 =>
      show (b :: setLast f (b2 :: rest2)).length = (b :: b2 :: rest2).length
      simp [ih]

theorem setLast_lt (f : Nat → Nat) (hf : ∀ b, b < 256 → f b < 256) :
    ∀ l : List Nat, (∀ b ∈ l, b < 256) → ∀ b ∈ setLast f l, b < 256 := by
  intro l
  induction l with
  | nil => intro _ b hb; exact absurd hb (List.not_mem_nil b)
  | cons b rest ih =>
    intro hl c hc
    cases rest with
    | nil =>
      have : setLast f [b] = [f b] := rfl
      rw [this] at hc
      rcases List.mem_singleton.1 hc with h
      exact h ▸ hf b (hl b (List.mem_singleton.2 rfl))
    | cons b2 rest2 =>
      have : setLast f (b :: b2 :: rest2) = b :: setLast f (b2 :: rest2) := rfl
      rw [this] at hc
      rcases List.mem_cons.1 hc with h | h
      · exact h ▸ hl b (List.mem_cons_self _ _)
      · exact ih (fun x hx => hl x (List.mem_cons_of_mem _ hx)) c h

theorem clampPrivateKey_length : ∀ l : List Nat, (clampPrivateKey l).length = l.length := by
  intro l
  cases l with
  | nil => rfl
  | cons b0 rest =>
    show (setLast clampLastByte (clampFirstByte b0 :: rest)).length = (b0 :: rest).length
    simp [setLast_length]

theorem clampPrivateKey_lt (l : List Nat) (hl : ∀ b ∈ l, b < 256) :
    ∀ b ∈ clampPrivateKey l, b < 256 := by
  cases l with
  | nil => intro b hb; exact absurd hb (List.not_mem_nil b)
  | cons b0 rest =>
    intro c hc
    refine setLast_lt clampLastByte clampLastByte_lt (clampFirstByte b0 :: rest) ?_ c hc
    intro x hx
    rcases List.mem_cons.1 hx with h | h
    · exact h ▸ clampFirstByte_lt b0 (hl b0 (List.mem_cons_self _ _))
    · exact hl x (List.mem_cons_of_mem _ h)

/-- `agent.RealityKeys` at the byte level: `PrivateKey` and `PublicKey`
are the ASCII codes of the Base64 strings. -/
structure RealityKeysBytes where
  PrivateKey : List Nat
  PublicKey : List Nat
deriving DecidableEq, Repr

/-- Shallow embedding of `GenerateRealityKeypair`: clamp the 32 random
bytes, derive the public key through `sbm` (curve25519 scalar-base
multiplication) and Base64-encode both. -/
def GenerateRealityKeypair (sbm : List Nat → List Nat) (rand : List Nat) :
    RealityKeysBytes :=
  { PrivateKey := b64Encode (clampPrivateKey rand),
    PublicKey := b64Encode (sbm (clampPrivateKey rand)) }

/-- Shallow embedding of `generateAndSaveKeys`: generate a keypair and
persist the Base64 private key as the new file content; `isNew = true`. -/
def generateAndSaveKeys (sbm : List Nat → List Nat) (rand : List Nat) :
    RealityKeysBytes × Bool × Option (List Nat) :=
  let keys := GenerateRealityKeypair sbm rand
  (keys, true, some keys.PrivateKey)

/-- Shallow embedding of `LoadOrCreateRealityKeys`: if the file exists and
its content decodes to exactly 32 bytes, keep the stored private key and
re-derive the public key (`isNew = false`); otherwise (missing file,
invalid Base64 or wrong length) generate, persist and return a fresh
keypair (`isNew = true`). -/
def LoadOrCreateRealityKeys (sbm : List Nat → List Nat) (rand : List Nat)
    (file : Option (List Nat)) : RealityKeysBytes × Bool × Option (List Nat) :=
  match file with
  | some content =>
    match b64Decode content with
    | some priv =>
      if priv.length = 32 then
        ({ PrivateKey := content, PublicKey := b64Encode (sbm priv) },
         false, some content)
      else generateAndSaveKeys sbm rand
    | none => generateAndSaveKeys sbm rand
  | none => generateAndSaveKeys sbm rand

/-- Claim C7 (keypair round-trip): a first `LoadOrCreateRealityKeys` call
with no key file generates and persists a keypair with `isNew = true`; a
second call on the resulting unmodified file returns `isNew = false` and a
public key byte-identical to the first call's. -/
theorem loadOrCreate_roundtrip (sbm : List Nat → List Nat)
    (rand rand2 : List Nat) (hlen : rand.length = 32)
    (hbytes : ∀ b ∈ rand, b < 256) :
    (LoadOrCreateRealityKeys sbm rand none).2.1 = true ∧
    (LoadOrCreateRealityKeys sbm rand2
        (LoadOrCreateRealityKeys sbm rand none).2.2).2.1 = false ∧
    (LoadOrCreateRealityKeys sbm rand2
        (LoadOrCreateRealityKeys sbm rand none).2.2).1.PublicKey =
      (LoadOrCreateRealityKeys sbm rand none).1.PublicKey := by
  have hclen : (clampPrivateKey rand).length = 32 := by
    rw [clampPrivateKey_length, hlen]
  have hdec : b64Decode (b64Encode (clampPrivateKey rand)) =
      some (clampPrivateKey rand) :=
    b64_roundtrip _ (clampPrivateKey_lt rand hbytes)
  have hfirst : LoadOrCreateRealityKeys sbm rand none =
      (GenerateRealityKeypair sbm rand, true,
        some (b64Encode (clampPrivateKey rand))) := rfl
  rw [hfirst]
  simp only [LoadOrCreateRealityKeys, hdec, hclen, if_pos]
  exact ⟨trivial, trivial, rfl⟩

/-- Concrete witness for claim C7: 32 random bytes `0..31` and the
identity in place of the scalar-base multiplication. -/
theorem loadOrCreate_roundtrip_witness :
    (LoadOrCreateRealityKeys (fun l => l) (List.range 32) none).2.1 = true ∧
    (LoadOrCreateRealityKeys (fun l => l) []
        (LoadOrCreateRealityKeys (fun l => l) (List.range 32) none).2.2).2.1 = false ∧
    (LoadOrCreateRealityKeys (fun l => l) []
        (LoadOrCreateRealityKeys (fun l => l) (List.range 32) none).2.2).1.PublicKey =
      (LoadOrCreateRealityKeys (fun l => l) (List.range 32) none).1.PublicKey :=
  loadOrCreate_roundtrip (fun l => l) (List.range 32) [] (by decide) (by decide)
